import Mathlib

/-!
Shallow embedding of the Babbla streaming-TTS core
(`src/babbla/chunker.py`, `src/babbla/cache.py`, `src/babbla/metrics.py`,
`src/voicecli/streaming_controller.py`) together with proofs about it.

Conventions used throughout:
* Python `str` values are modelled as `List Char` (one entry per code point,
  matching Python's `len`/indexing semantics).
* Python `float` arithmetic is modelled over `ℚ`.  Where a float rounding
  step is semantically relevant (`int(x * 0.8)`, `int(x * 0.1)`) the exact
  binary64 computation is embedded (see `floorMulDouble`); elsewhere the
  float literals `0.95` / `0.3` are kept as their exact binary64 values and
  additions are modelled exactly, which preserves every ordering fact since
  binary64 rounding is monotone.
* Fallible code returns `Option` / `Except`.
-/

/-- Python strings as lists of code points. -/
abbrev PyStr := List Char

/-! ## Binary64 helpers

`int(n * 0.8)` and `int(n * 0.1)` in the source multiply a Python int by a
float literal and truncate.  The literals 0.8 and 0.1 both have binary64
significand 3602879701896397 (0.8 = m·2⁻⁵², 0.1 = m·2⁻⁵⁵).  The helpers
below compute the exact binary64 product (round to 53 significant bits,
ties to even) and truncate it toward zero, with an unbounded exponent
(exact for every operand far below the binary64 overflow threshold). -/

/-- Round `p / 2^s` to the nearest integer, ties to even. -/
def rheDiv (p s : ℕ) : ℕ :=
  if s = 0 then p
  else
    let q := p / 2 ^ s
    let r := p % 2 ^ s
    let half := 2 ^ (s - 1)
    if half < r then q + 1
    else if r < half then q
    else if q % 2 = 0 then q else q + 1

/-- Bit length of a natural number, by fuelled halving (structural so that
it reduces inside the kernel; 4096 halvings cover every value far beyond
the binary64 overflow threshold 2¹⁰²⁴, past which the Python computation
modelled here would raise `OverflowError` anyway). -/
def bitLenAux : ℕ → ℕ → ℕ
  | 0, _ => 0
  | fuel + 1, n => if n = 0 then 0 else bitLenAux fuel (n / 2) + 1

/-- Bit length: `bitLen 0 = 0`, otherwise `⌊log₂ n⌋ + 1`. -/
def bitLen (n : ℕ) : ℕ := bitLenAux 4096 n

/-- Floor of the binary64 rounding of `p / 2^e`: round `p` to 53 significant
bits (ties to even), then divide by `2^e` and truncate. -/
def floorMulDouble (p e : ℕ) : ℕ :=
  if p = 0 then 0
  else
    let s := bitLen p - 53
    rheDiv p s * 2 ^ s / 2 ^ e

/-- Binary64 significand shared by the literals 0.8 and 0.1. -/
def m08 : ℕ := 3602879701896397

/-- `int(n * 0.8)` on a Python int `n` (binary64 product, truncated). -/
def pyTrunc08 (n : ℤ) : ℤ :=
  if n < 0 then -(floorMulDouble (n.natAbs * m08) 52 : ℕ)
  else (floorMulDouble (n.natAbs * m08) 52 : ℕ)

/-- `int(n * 0.1)` on a Python int `n` (binary64 product, truncated). -/
def pyTrunc01 (n : ℤ) : ℤ :=
  if n < 0 then -(floorMulDouble (n.natAbs * m08) 55 : ℕ)
  else (floorMulDouble (n.natAbs * m08) 55 : ℕ)

/-- The exact value of the binary64 literal `0.3`
(used by `_compute_backoff`; scaling it by `2^(attempt-1)` is exact in
binary64 below overflow). -/
def c03 : ℚ := 5404319552844595 / 2 ^ 54

/-- Round a rational to the nearest integer, ties to even
(Python's `round` on an exactly-represented value). -/
def roundHalfEven (x : ℚ) : ℤ :=
  let f := ⌊x⌋
  let r := x - f
  if r < 1 / 2 then f
  else if 1 / 2 < r then f + 1
  else if f % 2 = 0 then f else f + 1

/-- `round(x, 4)` modelled over `ℚ`. -/
def round4 (x : ℚ) : ℚ := (roundHalfEven (x * 10 ^ 4) : ℚ) / 10 ^ 4

/-- `round(x, 6)` modelled over `ℚ`. -/
def round6 (x : ℚ) : ℚ := (roundHalfEven (x * 10 ^ 6) : ℚ) / 10 ^ 6

/-! ## Chunker (`src/babbla/chunker.py`) -/

/-- Python's whitespace set for `str.split()` (ASCII portion; the inputs in
this development contain no exotic Unicode whitespace). -/
def isPySpace (c : Char) : Bool :=
  c = ' ' || c = '\t' || c = '\n' || c = '\r' || c = '\x0b' || c = '\x0c'

/-- `text.strip().split()`: whitespace-delimited tokens, empties dropped. -/
def pyTokens (text : PyStr) : List PyStr :=
  (List.splitOnP isPySpace text).filter (· ≠ [])

/-- `_normalize_whitespace`: `" ".join(text.strip().split())`. -/
def normalize_whitespace (text : PyStr) : PyStr :=
  List.intercalate [' '] (pyTokens text)

/-- `SENTENCE_SPLIT_REGEX = (?<=[.!?])\s+` applied to an already normalized
string (whose only whitespace is single spaces): split at each space that
immediately follows `.`, `!` or `?`, consuming the space. -/
def sentenceSplitAux (prev : Char) : List Char → List Char → List PyStr
  | [], acc => [acc.reverse]
  | c :: rest, acc =>
    if c = ' ' ∧ (prev = '.' ∨ prev = '!' ∨ prev = '?') then
      acc.reverse :: sentenceSplitAux c rest []
    else
      sentenceSplitAux c rest (c :: acc)

/-- Sentence boundary split of a normalized string. -/
def splitSentencesRegex (s : PyStr) : List PyStr :=
  sentenceSplitAux '\x00' s []

/-- The `while index < len(token)` slicing loop of `_split_token`
(`chunker.py` lines 88-101), with a structural fuel so it reduces in the
kernel.  `sliceLen = max_chars - 1`; each non-final slice is suffixed with
a hyphen.  The `sliceLen = 0` guard is unreachable from `split_token`
(which only enters the loop with `max_chars ≥ 2`); the source loop would
not terminate there. -/
def sliceLoopF (sliceLen maxChars : ℕ) : ℕ → List Char → List PyStr
  | 0, _ => []
  | fuel + 1, cs =>
    if sliceLen = 0 then []
    else if cs = [] then []
    else
      let chunk := cs.take sliceLen
      let rest := cs.drop sliceLen
      if rest = [] then
        if maxChars < chunk.length then chunk.map (fun c => [c]) else [chunk]
      else
        (chunk ++ ['-']) :: sliceLoopF sliceLen maxChars fuel rest

/-- The slicing loop at sufficient fuel (`sliceLen ≥ 1` consumes at least
one character per iteration, so `cs.length` iterations always suffice). -/
def sliceLoop (sliceLen maxChars : ℕ) (cs : List Char) : List PyStr :=
  sliceLoopF sliceLen maxChars cs.length cs

/-- `_split_token` (`chunker.py` lines 77-101). -/
def split_token (token : PyStr) (maxChars : ℕ) : List PyStr :=
  if token.length ≤ maxChars then [token]
  else if maxChars ≤ 1 then token.map (fun c => [c])
  else sliceLoop (maxChars - 1) maxChars token

/-- One step of the accumulator logic in `_split_sentence`
(lines 60-71): the state `st` is the pair `(results, current)`. -/
def packFragment (maxChars : ℕ) (st : List PyStr × PyStr) (fragment : PyStr) :
    List PyStr × PyStr :=
  if st.2 = [] then (st.1, fragment)
  else
    let candidateLen := st.2.length + 1 + fragment.length
    if candidateLen ≤ maxChars ∨ candidateLen - maxChars < fragment.length then
      (st.1, st.2 ++ [' '] ++ fragment)
    else
      (st.1 ++ [st.2], fragment)

/-- `_split_sentence` (`chunker.py` lines 53-74). -/
def split_sentence (sentence : PyStr) (maxChars : ℕ) : List PyStr :=
  let fragments :=
    ((sentence.splitOnP (· = ' ')).filter (· ≠ [])).flatMap
      (fun token => split_token token maxChars)
  let st := fragments.foldl (packFragment maxChars) ([], [])
  if st.2 = [] then st.1 else st.1 ++ [st.2]

/-- `chunk_text` with a positive `max_chars` (`chunker.py` lines 31-46). -/
def chunk_text_pos (text : PyStr) (maxChars : ℕ) : List PyStr :=
  let normalized := normalize_whitespace text
  if normalized = [] then []
  else
    let rawSentences := splitSentencesRegex normalized
    rawSentences.flatMap (fun sentence =>
      if sentence = [] then [] else split_sentence sentence maxChars)

/-- `chunk_text` (`chunker.py` lines 17-46): `max_chars <= 0` raises
`ValueError`, modelled as `none`. -/
def chunk_text (text : PyStr) (maxChars : ℤ) : Option (List PyStr) :=
  if maxChars ≤ 0 then none
  else some (chunk_text_pos text maxChars.toNat)

/-- Modelled from the spec (§4.1 step 4): fixed-width slicing of an
over-long token into slices of width `w = max_chars - 1`, each non-final
slice suffixed with a hyphen and the final slice left as the bare
remainder.  Used to state the refinement claim C9 against `split_token`. -/
def spec_slicesF (w : ℕ) : ℕ → List Char → List PyStr
  | 0, cs => [cs]
  | fuel + 1, cs =>
    if w = 0 then [cs]
    else if cs.length ≤ w then [cs]
    else (cs.take w ++ ['-']) :: spec_slicesF w fuel (cs.drop w)

/-- Fixed-width spec slicing at sufficient fuel. -/
def spec_slices (w : ℕ) (cs : List Char) : List PyStr :=
  spec_slicesF w cs.length cs

/-! ## Metrics (`src/babbla/metrics.py`) -/

/-- `ChunkMetrics` (timestamps in seconds, modelled over `ℚ`). -/
structure ChunkMetrics where
  chunk_index : ℕ
  char_len : ℕ
  request_start : ℚ
  first_frame : ℚ
  playback_start : ℚ
  chunk_complete : ℚ
deriving DecidableEq, Repr

/-- `ChunkMetrics.synthesis_latency_ms`. -/
def ChunkMetrics.synthesis_latency_ms (m : ChunkMetrics) : ℚ :=
  round6 (max 0 ((m.first_frame - m.request_start) * 1000))

/-- `ChunkMetrics.startup_latency_ms`. -/
def ChunkMetrics.startup_latency_ms (m : ChunkMetrics) : ℚ :=
  round6 (max 0 ((m.playback_start - m.request_start) * 1000))

/-- `ChunkMetrics.buffer_fill_latency_ms`. -/
def ChunkMetrics.buffer_fill_latency_ms (m : ChunkMetrics) : ℚ :=
  round6 (max 0 ((m.playback_start - m.first_frame) * 1000))

/-- `_percentile` (`metrics.py` lines 85-97).  Python's stable `sorted` is
modelled by a stable insertion sort.  In the `lower == upper` branch the
rank is an integer, so `ordered[int(rank)]` is `ordered[lower]`. -/
def percentile (values : List ℚ) (p : ℚ) : ℚ :=
  if values = [] then 0
  else
    let ordered := values.insertionSort (· ≤ ·)
    let rank := p * ((values.length : ℚ) - 1)
    let lower := ⌊rank⌋
    let upper := ⌈rank⌉
    if lower = upper then ordered.getD lower.toNat 0
    else
      let weight := rank - (lower : ℚ)
      ordered.getD lower.toNat 0 * (1 - weight) + ordered.getD upper.toNat 0 * weight

/-- Summary dictionary returned by `summarise_metrics`. -/
structure MetricsSummary where
  p95_first_frame_ms : ℚ
  p95_startup_ms : ℚ
  avg_inter_chunk_gap_ms : ℚ
deriving DecidableEq, Repr

/-- `summarise_metrics` (`metrics.py` lines 40-59).  The percentile
argument `0.95` is kept as the exact rational; for the window sizes that
occur (n ≤ 5) the binary64 value takes the same branch and interpolation
weights differing only below 2⁻⁵⁰, which no claim depends on. -/
def summarise_metrics (metrics : List ChunkMetrics) : MetricsSummary :=
  if metrics = [] then ⟨0, 0, 0⟩
  else
    let firstFrameLatencies := metrics.map ChunkMetrics.synthesis_latency_ms
    let startupLatencies := metrics.map ChunkMetrics.startup_latency_ms
    let gaps := (metrics.zip metrics.tail).map
      (fun pr => max 0 ((pr.2.playback_start - pr.1.chunk_complete) * 1000))
    { p95_first_frame_ms := percentile firstFrameLatencies (95 / 100)
      p95_startup_ms := percentile startupLatencies (95 / 100)
      avg_inter_chunk_gap_ms := if gaps = [] then 0 else gaps.sum / gaps.length }

/-! ## Phrase cache (`src/babbla/cache.py`)

The two artifacts of one fingerprint's entry are modelled explicitly; byte
strings are `List ℕ`.  Timestamps are rational UTC epoch seconds
(`datetime.fromisoformat` plus the naive→UTC normalisation amount to
recovering the stored instant).  An `OSError` while reading a file is
modelled by a `none` read result; a malformed metadata file (JSON error,
missing key, bad timestamp or sample rate) by `MetaContent.malformed`.
`unlinkFails` set on a path models `Path.unlink` raising an `OSError`
other than `FileNotFoundError` (e.g. a permission error). -/

/-- Bytes of a cache audio artifact. -/
abbrev Bytes := List ℕ

/-- Parsed-or-not content of one metadata artifact. -/
inductive MetaContent where
  | malformed
  | parsed (created_at : ℚ) (sample_rate : ℤ)
deriving DecidableEq, Repr

/-- On-disk state of the two artifacts belonging to one fingerprint. -/
structure EntryFS where
  pcmExists : Bool
  pcmRead : Option Bytes
  pcmUnlinkFails : Bool
  metaExists : Bool
  metaRead : Option MetaContent
  metaUnlinkFails : Bool
deriving DecidableEq, Repr

/-- Filesystem error escaping the cache (an `OSError` that is not a
`FileNotFoundError`, raised by `Path.unlink`). -/
inductive FsErr where
  | osError
deriving DecidableEq, Repr

/-- `CachedItem` (`cache.py` lines 16-20). -/
structure CachedItem where
  pcm : Bytes
  sample_rate : ℤ
  created_at : ℚ
deriving DecidableEq, Repr

/-- `_remove_files` (`cache.py` lines 106-111): unlink the audio then the
metadata artifact; `FileNotFoundError` is swallowed, any other `OSError`
propagates immediately. -/
def remove_files (e : EntryFS) : Except FsErr EntryFS :=
  if e.pcmExists ∧ e.pcmUnlinkFails then .error .osError
  else
    let e1 := { e with pcmExists := false }
    if e1.metaExists ∧ e1.metaUnlinkFails then .error .osError
    else .ok { e1 with metaExists := false }

/-- `PhraseCache.get` (`cache.py` lines 52-78), for one fingerprint's entry
state, at wall-clock time `now` with TTL `ttl` (both in seconds). -/
def cache_get (now ttl : ℚ) (e : EntryFS) : Except FsErr (Option CachedItem × EntryFS) :=
  if ¬(e.metaExists ∧ e.pcmExists) then .ok (none, e)
  else
    match e.metaRead with
    | none => do let e' ← remove_files e; .ok (none, e')
    | some .malformed => do let e' ← remove_files e; .ok (none, e')
    | some (.parsed created_at sample_rate) =>
      if ttl < now - created_at then do let e' ← remove_files e; .ok (none, e')
      else
        match e.pcmRead with
        | none => do let e' ← remove_files e; .ok (none, e')
        | some pcm => .ok (some ⟨pcm, sample_rate, created_at⟩, e)

/-- `PhraseCache.put` (`cache.py` lines 80-94): writes the audio bytes and
then a fresh metadata artifact recording `now` and the sample rate.  Both
artifacts are freshly (re)written, hence readable. -/
def cache_put (now : ℚ) (pcm_bytes : Bytes) (sample_rate : ℤ) : EntryFS :=
  { pcmExists := true
    pcmRead := some pcm_bytes
    pcmUnlinkFails := false
    metaExists := true
    metaRead := some (.parsed now sample_rate)
    metaUnlinkFails := false }

/-! ## Streaming controller (`src/voicecli/streaming_controller.py`)

The controller is embedded as a state-passing function over an explicit
environment of collaborator behaviours (provider stream outcomes per call,
clock readings, jitter draws), producing a trace of every collaborator
call it makes.  `event_logger`/`logger` calls and the gap value computed
from `previous_chunk_complete` only produce log output and are not
modelled.  The phrase cache is modelled at its collaborator interface as
an in-memory fingerprint map (its on-disk semantics are embedded above). -/

/-- `AudioFrame` (`provider_base.py`). -/
structure AudioFrame where
  pcm : Bytes
  sample_rate : ℤ
deriving DecidableEq, Repr

/-- One item yielded by a provider stream; `notAFrame` models a yielded
value that is not an `AudioFrame` instance (raises `TypeError`). -/
inductive StreamItem where
  | frame (f : AudioFrame)
  | notAFrame
deriving DecidableEq, Repr

/-- Provider exception classes relevant to `run`'s retry logic. -/
inductive PErr where
  | auth
  | conn
  | network
  | rateLimit (retry_after : Option ℚ)
deriving DecidableEq, Repr

/-- `getattr(exc, "retry_after", None)`. -/
def PErr.retryAfter : PErr → Option ℚ
  | .rateLimit ra => ra
  | _ => none

/-- Behaviour of one `provider.stream` call: the frames the generator
yields before either finishing normally (`terminal = none`) or raising
`terminal = some e` mid-iteration. -/
structure StreamResult where
  frames : List StreamItem
  terminal : Option PErr
deriving DecidableEq, Repr

/-- Errors propagating out of `StreamingController.run`. -/
inductive RunErr where
  | auth
  | conn
  | network
  | rateLimit (retry_after : Option ℚ)
  | typeError
  | recursionError
  | valueError
  | audioDevice
deriving DecidableEq, Repr

/-- The fingerprint computed by `make_cache_key` (`cache.py` lines 23-42):
the source hashes a canonical JSON payload of the five inputs with
SHA-256; the fingerprint is modelled as that payload itself — two
fingerprints are equal iff all five inputs are equal after rounding to 4
decimal places, exactly the payload-equality the hash fingerprints. -/
structure Fingerprint where
  voice_id : PyStr
  model_id : PyStr
  stability : ℚ
  similarity : ℚ
  text : PyStr
deriving DecidableEq, Repr

/-- `make_cache_key` (`cache.py` lines 23-42). -/
def make_cache_key (voice_id model_id : PyStr) (stability similarity : ℚ)
    (chunk_text : PyStr) : Fingerprint :=
  ⟨voice_id, model_id, round4 stability, round4 similarity, chunk_text⟩

/-- The parameter dictionaries (`cache_params`, `provider_settings`)
restricted to the keys `_compute_cache_key` reads.  `none` models an
absent key (a key present with value `None` behaves identically through
the `or ""` / default chains).  The `chunk_index` entry added to
`base_settings` is not among these keys and does not affect the
fingerprint. -/
structure Params where
  voice_id : Option PyStr := none
  model_id : Option PyStr := none
  stability : Option ℚ := none
  stability_boost : Option ℚ := none
  similarity : Option ℚ := none
  similarity_boost : Option ℚ := none
deriving DecidableEq, Repr

/-- `params = dict(self.cache_params); params.update(settings or {})`:
keys present in `settings` override. -/
def merge_params (base upd : Params) : Params :=
  { voice_id := upd.voice_id <|> base.voice_id
    model_id := upd.model_id <|> base.model_id
    stability := upd.stability <|> base.stability
    stability_boost := upd.stability_boost <|> base.stability_boost
    similarity := upd.similarity <|> base.similarity
    similarity_boost := upd.similarity_boost <|> base.similarity_boost }

/-- `_compute_cache_key` (`streaming_controller.py` lines 143-164). -/
def compute_cache_key (cacheEnabled : Bool) (cache_params settings : Params)
    (chunk : PyStr) : Option Fingerprint :=
  if ¬cacheEnabled then none
  else
    let params := merge_params cache_params settings
    let voice_id := params.voice_id.getD []
    let model_id := params.model_id.getD []
    let stability := params.stability.getD (params.stability_boost.getD 0)
    let similarity := params.similarity.getD (params.similarity_boost.getD 0)
    if voice_id = [] ∨ model_id = [] then none
    else some (make_cache_key voice_id model_id stability similarity chunk)

/-- `ControllerState`: the mutable fields of one `StreamingController`. -/
structure CtrlState where
  metrics : List ChunkMetrics
  recent_metrics : List ChunkMetrics
  recent_underruns : List Bool
  pending_underrun : Bool
  prebuffer_ms : ℤ
  chunk_max_chars : ℤ
deriving DecidableEq, Repr

/-- `_compute_backoff` (`streaming_controller.py` lines 254-259); the
jitter drawn by `random.uniform(0.0, 0.1)` is an explicit argument.
`if retry_after:` is Python truthiness: `None` and `0.0` both take the
no-hint branch. -/
def compute_backoff (attempt : ℕ) (retry_after : Option ℚ) (jitter : ℚ) : ℚ :=
  let base := c03 * 2 ^ (attempt - 1)
  match retry_after with
  | none => base + jitter
  | some ra => if ra = 0 then base + jitter else max ra base + jitter

/-- `_apply_adaptive_logic` (`streaming_controller.py` lines 279-299).
The guarded self-assignment `if new_prebuffer != self.prebuffer_ms` only
gates a log line (the skipped assignment would write the same value), so
the prebuffer is assigned unconditionally here.  `int(... * 0.8)` is the
binary64 truncation `pyTrunc08`. -/
def apply_adaptive_logic (st : CtrlState) : CtrlState :=
  let st1 :=
    if 2 < st.recent_underruns.count true ∧ st.prebuffer_ms < 200 then
      { st with prebuffer_ms := min 200 (st.prebuffer_ms + 20) }
    else st
  if 5 ≤ st1.recent_metrics.length then
    let recent := st1.recent_metrics.drop (st1.recent_metrics.length - 5)
    let summary := summarise_metrics recent
    if 600 < summary.p95_first_frame_ms then
      let new_chunk := max 80 (pyTrunc08 st1.chunk_max_chars)
      if new_chunk < st1.chunk_max_chars then
        { st1 with chunk_max_chars := new_chunk }
      else st1
    else st1
  else st1

/-- CPython's default recursion limit headroom; `_record_metric`'s fuel in
`controller_run` (its value is irrelevant: every fuel yields the same
`RecursionError`, see the C1 theorem). -/
def pyRecursionLimit : ℕ := 1000

/-- `_record_metric` (`streaming_controller.py` lines 269-277).  Its first
statement is `self._record_metric(metric, underrun)` — an unconditional
self-call with unchanged arguments, so the call recurses until the
interpreter raises `RecursionError`; `fuel` is the remaining recursion
depth.  The statements after the self-call (window pushes, eviction at
capacity 5 via `pop(0)`, and the adaptive step) are embedded faithfully
but are unreachable. -/
def record_metric : ℕ → CtrlState → ChunkMetrics → Bool → Except RunErr CtrlState
  | 0, _, _, _ => .error .recursionError
  | fuel + 1, st, metric, underrun =>
    match record_metric fuel st metric underrun with
    | .error e => .error e
    | .ok st1 =>
      let rm0 := st1.recent_metrics ++ [metric]
      let ru0 := st1.recent_underruns ++ [underrun]
      let rm := if 5 < rm0.length then rm0.tail else rm0
      let ru := if 5 < ru0.length then ru0.tail else ru0
      .ok (apply_adaptive_logic { st1 with recent_metrics := rm, recent_underruns := ru })

/-- Trace of collaborator calls made during one `run`. -/
inductive Event where
  | connect
  | start (sample_rate : ℤ)
  | streamCall (call : ℕ)
  | submit (f : AudioFrame)
  | cacheGet (k : Fingerprint)
  | cachePut (k : Fingerprint) (pcm : Bytes) (sample_rate : ℤ)
  | sleeps (delay : ℚ)
  | flushClose
  | closeProvider
deriving DecidableEq, Repr

/-- Environment of collaborator behaviours for one `run`. -/
structure Env where
  stream_behavior : ℕ → StreamResult
  clockB : ℕ → ℚ
  jitterB : ℕ → ℚ
  connect_error : Option RunErr := none
  start_error : Option RunErr := none
  max_retries : ℕ := 2
  cache_enabled : Bool := false
  cache_params : Params := {}
  provider_settings : Params := {}
  cache_init : List (Fingerprint × (Bytes × ℤ)) := []

/-- Mutable runtime state threaded through one `run`. -/
structure RState where
  ctrl : CtrlState
  trace : List Event
  clockIdx : ℕ
  jitterIdx : ℕ
  streamIdx : ℕ
  cacheMap : List (Fingerprint × (Bytes × ℤ))

/-- Append one collaborator call to the trace. -/
def RState.emit (rs : RState) (ev : Event) : RState :=
  { rs with trace := rs.trace ++ [ev] }

/-- One `self._clock()` call. -/
def RState.tick (rs : RState) (env : Env) : ℚ × RState :=
  (env.clockB rs.clockIdx, { rs with clockIdx := rs.clockIdx + 1 })

/-- `_consume_pending_underrun` (lines 264-267). -/
def RState.consumeUnderrun (rs : RState) : Bool × RState :=
  (rs.ctrl.pending_underrun, { rs with ctrl.pending_underrun := false })

/-- Interface-level cache lookup (first binding wins, i.e. newest). -/
def cacheFind (m : List (Fingerprint × (Bytes × ℤ))) (k : Fingerprint) :
    Option (Bytes × ℤ) :=
  (m.find? (fun p => p.1 = k)).map (·.2)

/-- Slice a byte string into consecutive pieces of `chunkSize` bytes (the
`range(0, len, chunk_size)` loop of `_play_cached_item`; every produced
slice is nonempty, so the `if not frame_bytes: continue` guard never
fires).  `chunkSize = 0` cannot occur (it is `2 * max(1, …) ≥ 2`); fuel
`b.length` suffices since each iteration consumes `chunkSize ≥ 1`
bytes. -/
def chunkPcmF (chunkSize : ℕ) : ℕ → Bytes → List Bytes
  | 0, _ => []
  | fuel + 1, b =>
    if chunkSize = 0 then []
    else if b = [] then []
    else b.take chunkSize :: chunkPcmF chunkSize fuel (b.drop chunkSize)

/-- PCM slicing at sufficient fuel. -/
def chunkPcm (chunkSize : ℕ) (b : Bytes) : List Bytes :=
  chunkPcmF chunkSize b.length b

/-- `_play_cached_item` (lines 166-176): replay cached audio in ~100 ms
PCM16 frames; `int(sample_rate * 0.1)` is the binary64 truncation. -/
def play_cached_item (sample_rate : ℤ) (pcm : Bytes) (rs : RState) : RState :=
  let slice_samples := max 1 (pyTrunc01 sample_rate)
  let chunk_size := (slice_samples * 2).toNat
  (chunkPcm chunk_size pcm).foldl
    (fun rs fb => rs.emit (.submit ⟨fb, sample_rate⟩)) rs

/-- Errors raised inside `_process_chunk`. -/
inductive ProcErr where
  | perr (e : PErr)
  | typeError
deriving DecidableEq, Repr

/-- The `for frame in self.provider.stream(...)` loop body (lines
217-233): take a clock reading, latch the first-frame and playback-start
timestamps, submit the frame, and accumulate the raw bytes; a yielded
non-frame raises `TypeError` immediately. -/
def frames_loop (env : Env) :
    List StreamItem → RState → Option ℚ → Option ℚ → Bytes →
    RState × Except Unit (Option ℚ × Option ℚ × Bytes)
  | [], rs, ff, pb, buf => (rs, .ok (ff, pb, buf))
  | .notAFrame :: _, rs, _, _, _ => (rs, .error ())
  | .frame f :: rest, rs, ff, pb, buf =>
    let (now, rs) := rs.tick env
    let ff := some (ff.getD now)
    let pb := some (pb.getD now)
    let rs := rs.emit (.submit f)
    frames_loop env rest rs ff pb (buf ++ f.pcm)

/-- The cache-miss synthesis path of `_process_chunk` (lines 212-252). -/
def stream_and_play (env : Env) (index : ℕ) (chunk : PyStr) (sample_rate : ℤ)
    (cache_key : Option Fingerprint) (rs : RState) :
    RState × Except ProcErr (ChunkMetrics × Bool) :=
  let (request_start, rs) := rs.tick env
  let callId := rs.streamIdx
  let sr := env.stream_behavior callId
  let rs := RState.emit { rs with streamIdx := callId + 1 } (.streamCall callId)
  match frames_loop env sr.frames rs none none [] with
  | (rs, .error ()) => (rs, .error .typeError)
  | (rs, .ok (ff, pb, buf)) =>
    match sr.terminal with
    | some e => (rs, .error (.perr e))
    | none =>
      let (chunk_complete, rs) := rs.tick env
      let rs :=
        match cache_key with
        | some key =>
          if buf = [] then rs
          else
            RState.emit { rs with cacheMap := (key, (buf, sample_rate)) :: rs.cacheMap }
              (.cachePut key buf sample_rate)
        | none => rs
      let (underrun, rs) := rs.consumeUnderrun
      (rs, .ok ({ chunk_index := index
                  char_len := chunk.length
                  request_start
                  first_frame := ff.getD chunk_complete
                  playback_start := pb.getD chunk_complete
                  chunk_complete }, underrun))

/-- `_process_chunk` (lines 178-252).  `compute_cache_key` returns `some`
only when the cache is configured, so `if cache_key and self.cache:` is
the `some` branch.  On a hit all four leading timestamps coincide with
the replay start. -/
def process_chunk (env : Env) (index : ℕ) (chunk : PyStr) (sample_rate : ℤ)
    (rs : RState) : RState × Except ProcErr (ChunkMetrics × Bool) :=
  let cache_key :=
    compute_cache_key env.cache_enabled env.cache_params env.provider_settings chunk
  match cache_key with
  | some key =>
    let rs := rs.emit (.cacheGet key)
    match cacheFind rs.cacheMap key with
    | some (pcm, _rate) =>
      let (request_start, rs) := rs.tick env
      let rs := play_cached_item sample_rate pcm rs
      let (chunk_complete, rs) := rs.tick env
      let (underrun, rs) := rs.consumeUnderrun
      (rs, .ok ({ chunk_index := index
                  char_len := chunk.length
                  request_start
                  first_frame := request_start
                  playback_start := request_start
                  chunk_complete }, underrun))
    | none => stream_and_play env index chunk sample_rate cache_key rs
  | none => stream_and_play env index chunk sample_rate cache_key rs

/-- The `while True` retry loop around `_process_chunk` in `run` (lines
82-136): fatal provider errors and `TypeError` propagate; transient
errors increment `attempts`, and once `attempts > max_retries` the error
propagates, otherwise the controller sleeps for the computed backoff and
retries the same chunk; on success `_record_metric` is called (which
raises `RecursionError`, see C1).  The structural `fuel` maintains
`fuel = max_retries + 1 - attempts`, so the loop recurses only while
`attempts + 1 ≤ max_retries` and the zero-fuel fallthrough (which
re-raises the transient error) is unreachable from `controller_run`. -/
def attempt_loop (env : Env) (index : ℕ) (chunk : PyStr) (sample_rate : ℤ) :
    ℕ → ℕ → RState → RState × Except RunErr (ChunkMetrics × Bool)
  | fuel, attempts, rs =>
    match process_chunk env index chunk sample_rate rs with
    | (rs, .ok mu) =>
      (match record_metric pyRecursionLimit rs.ctrl mu.1 mu.2 with
       | .error e => (rs, .error e)
       | .ok ctrl' => ({ rs with ctrl := ctrl' }, .ok mu))
    | (rs, .error .typeError) => (rs, .error .typeError)
    | (rs, .error (.perr e)) =>
      match e with
      | .auth => (rs, .error .auth)
      | .conn => (rs, .error .conn)
      | .network =>
        if env.max_retries < attempts + 1 then (rs, .error .network)
        else
          match fuel with
          | 0 => (rs, .error .network)
          | fuel + 1 =>
            let delay := compute_backoff (attempts + 1) none (env.jitterB rs.jitterIdx)
            let rs := RState.emit { rs with jitterIdx := rs.jitterIdx + 1 } (.sleeps delay)
            attempt_loop env index chunk sample_rate fuel (attempts + 1) rs
      | .rateLimit ra =>
        if env.max_retries < attempts + 1 then (rs, .error (.rateLimit ra))
        else
          match fuel with
          | 0 => (rs, .error (.rateLimit ra))
          | fuel + 1 =>
            let delay := compute_backoff (attempts + 1) ra (env.jitterB rs.jitterIdx)
            let rs := RState.emit { rs with jitterIdx := rs.jitterIdx + 1 } (.sleeps delay)
            attempt_loop env index chunk sample_rate fuel (attempts + 1) rs

/-- Python's `enumerate`. -/
def enumerateFrom {α : Type} (i : ℕ) : List α → List (ℕ × α)
  | [] => []
  | a :: as => (i, a) :: enumerateFrom (i + 1) as

/-- The `for index, chunk in enumerate(chunks)` loop of `run`. -/
def chunks_loop (env : Env) (sample_rate : ℤ) :
    List (ℕ × PyStr) → RState → RState × Option RunErr
  | [], rs => (rs, none)
  | (index, chunk) :: rest, rs =>
    match attempt_loop env index chunk sample_rate (env.max_retries + 1) 0 rs with
    | (rs, .ok _) => chunks_loop env sample_rate rest rs
    | (rs, .error e) => (rs, some e)

instance {ε α : Type} [DecidableEq ε] [DecidableEq α] : DecidableEq (Except ε α) :=
  fun a b =>
    match a, b with
    | .ok x, .ok y =>
      if h : x = y then .isTrue (by rw [h]) else .isFalse (by simp [h])
    | .error x, .error y =>
      if h : x = y then .isTrue (by rw [h]) else .isFalse (by simp [h])
    | .ok _, .error _ => .isFalse (by simp)
    | .error _, .ok _ => .isFalse (by simp)

/-- Result of one `StreamingController.run` call: the full collaborator
trace, the returned value or propagated error, and the final controller
state. -/
structure RunResult where
  trace : List Event
  result : Except RunErr (List ChunkMetrics)
  final : CtrlState
deriving DecidableEq, Repr

/-- `StreamingController.run` (lines 63-141).  An empty chunk list returns
`self.metrics` before touching any collaborator.  `provider.connect()` and
`playback.start(...)` precede the `try`, so an error raised by either
propagates without reaching the `finally`; once the `try` is entered,
`playback.flush_and_close()` and `provider.close()` run on every exit
path (they are modelled as non-raising). -/
def controller_run (env : Env) (st0 : CtrlState) (text : PyStr)
    (sample_rate : ℤ) (max_chars : Option ℤ) : RunResult :=
  let chunk_limit := max_chars.getD st0.chunk_max_chars
  match chunk_text text chunk_limit with
  | none => ⟨[], .error .valueError, st0⟩
  | some [] => ⟨[], .ok st0.metrics, st0⟩
  | some (c :: cs) =>
    match env.connect_error with
    | some e => ⟨[.connect], .error e, st0⟩
    | none =>
      match env.start_error with
      | some e => ⟨[.connect, .start sample_rate], .error e, st0⟩
      | none =>
        let rs0 : RState :=
          { ctrl := st0, trace := [.connect, .start sample_rate]
            clockIdx := 0, jitterIdx := 0, streamIdx := 0
            cacheMap := env.cache_init }
        let (rs, err?) := chunks_loop env sample_rate (enumerateFrom 0 (c :: cs)) rs0
        let finalTrace := rs.trace ++ [.flushClose, .closeProvider]
        match err? with
        | none => ⟨finalTrace, .ok rs.ctrl.metrics, rs.ctrl⟩
        | some e => ⟨finalTrace, .error e, rs.ctrl⟩

/-! ## Shared fixtures and helper lemmas -/

/-- Base controller state: the constructor defaults (`prebuffer_ms = 80`,
`chunk_max_chars = 200`, empty windows, empty metrics list). -/
def ctrl0 : CtrlState :=
  { metrics := [], recent_metrics := [], recent_underruns := []
    pending_underrun := false, prebuffer_ms := 80, chunk_max_chars := 200 }

/-- A minimal PCM16 frame. -/
def frameA : AudioFrame := ⟨[0, 0], 16000⟩

/-- Plain environment: every stream call yields a single frame. -/
def envPlain : Env :=
  { stream_behavior := fun _ => ⟨[.frame frameA], none⟩
    clockB := fun i => i, jitterB := fun _ => 0 }

/-- Environment whose playback sink fails to start. -/
def envStartFail : Env :=
  { stream_behavior := fun _ => ⟨[.frame frameA], none⟩
    clockB := fun i => i, jitterB := fun _ => 0
    start_error := some .audioDevice }

/-- Environment for the retry scenario: the first stream call raises a rate
limit with hint `r`, the second yields a single frame; the phrase cache is
configured with voice and model identifiers so a fingerprint is
computed. -/
def envRetry (r : ℚ) (jB cB : ℕ → ℚ) : Env :=
  { stream_behavior := fun i =>
      if i = 0 then ⟨[], some (.rateLimit (some r))⟩ else ⟨[.frame frameA], none⟩
    clockB := cB, jitterB := jB
    cache_enabled := true
    cache_params :=
      { voice_id := some ['v'], model_id := some ['m']
        stability := some (1 / 2), similarity := some (4 / 5) } }

/-- The fingerprint of the only chunk of `"Hi."` in the retry scenario. -/
def kHi : Fingerprint := make_cache_key ['v'] ['m'] (1 / 2) (4 / 5) ['H', 'i', '.']

/-- Every call to `_record_metric` ends in `RecursionError`, at every
remaining recursion depth: its first statement re-invokes itself with
unchanged arguments. -/
theorem record_metric_recursion (fuel : ℕ) (st : CtrlState) (m : ChunkMetrics)
    (u : Bool) : record_metric fuel st m u = .error .recursionError := by
  induction fuel with
  | zero => rfl
  | succ n ih => simp [record_metric, ih]

theorem chunk_hello :
    chunk_text ['H', 'e', 'l', 'l', 'o', '.'] 200 = some [['H', 'e', 'l', 'l', 'o', '.']] := by
  decide

theorem chunk_hi : chunk_text ['H', 'i', '.'] 200 = some [['H', 'i', '.']] := by decide

/-- A metric with one full second between request start and first frame
(synthesis latency 1000 ms). -/
def mSlow : ChunkMetrics :=
  { chunk_index := 0, char_len := 50, request_start := 0, first_frame := 1
    playback_start := 1, chunk_complete := 2 }

/-- The 95th-percentile first-frame latency of five copies of `mSlow`. -/
theorem p95_mSlow :
    (summarise_metrics (List.replicate 5 mSlow)).p95_first_frame_ms = 1000 := by
  have hceil : ⌈(19 : ℚ) / 5⌉ = 4 := by
    rw [Int.ceil_eq_iff]
    norm_num
  have hfloor : ⌊(19 : ℚ) / 5⌋ = 3 := by
    rw [Int.floor_eq_iff]
    norm_num
  norm_num [summarise_metrics, percentile, mSlow, ChunkMetrics.synthesis_latency_ms,
    ChunkMetrics.startup_latency_ms, round6, roundHalfEven, List.replicate,
    List.insertionSort, List.orderedInsert, hceil, hfloor, List.cons_ne_nil,
    Int.toNat, List.getElem_cons_zero, List.getElem_cons_succ]

theorem c03_pos : (0 : ℚ) < c03 := by norm_num [c03]

theorem backoff_base_mono (a : ℕ) : c03 * 2 ^ (a - 1) ≤ c03 * 2 ^ (a + 1 - 1) := by
  have h2 : (2 : ℚ) ^ (a - 1) ≤ 2 ^ (a + 1 - 1) := by
    apply pow_le_pow_right₀ (by norm_num)
    omega
  nlinarith [c03_pos]

/-- Every slice emitted by the `_split_token` loop has length at most
`max_chars` (slices carry at most `slice_len = max_chars - 1` characters
plus a hyphen). -/
theorem sliceLoopF_length_le (w mc : ℕ) (hw : w + 1 ≤ mc) :
    ∀ (fuel : ℕ) (cs : List Char) (f : PyStr),
      f ∈ sliceLoopF w mc fuel cs → f.length ≤ mc := by
  intro fuel
  induction fuel with
  | zero => intro cs f hf; simp [sliceLoopF] at hf
  | succ n ih =>
    intro cs f hf
    rw [sliceLoopF] at hf
    by_cases h0 : w = 0
    · rw [if_pos h0] at hf; simp at hf
    · rw [if_neg h0] at hf
      by_cases hcs : cs = []
      · rw [if_pos hcs] at hf; simp at hf
      · rw [if_neg hcs] at hf
        by_cases hrest : cs.drop w = []
        · rw [if_pos hrest] at hf
          by_cases hbig : mc < (cs.take w).length
          · rw [if_pos hbig] at hf
            obtain ⟨x, _, rfl⟩ := List.mem_map.mp hf
            simp only [List.length_singleton]
            omega
          · rw [if_neg hbig] at hf
            simp only [List.mem_singleton] at hf
            subst hf
            omega
        · rw [if_neg hrest] at hf
          rcases List.mem_cons.mp hf with rfl | hf'
          · have : (cs.take w).length ≤ w := by
              simp [List.length_take]
            simp only [List.length_append, List.length_singleton]
            omega
          · exact ih _ _ hf'

/-- Every fragment produced by `_split_token` has length at most
`max_chars`. -/
theorem split_token_length_le (token : PyStr) (mc : ℕ) (h1 : 1 ≤ mc) :
    ∀ f ∈ split_token token mc, f.length ≤ mc := by
  intro f hf
  rw [split_token] at hf
  by_cases hshort : token.length ≤ mc
  · rw [if_pos hshort] at hf
    simp only [List.mem_singleton] at hf
    subst hf; exact hshort
  · rw [if_neg hshort] at hf
    by_cases hone : mc ≤ 1
    · rw [if_pos hone] at hf
      obtain ⟨x, _, rfl⟩ := List.mem_map.mp hf
      simp only [List.length_singleton]
      omega
    · rw [if_neg hone] at hf
      exact sliceLoopF_length_le (mc - 1) mc (by omega) _ _ _ hf

/-- Invariant of the `_split_sentence` accumulator fold: when every
fragment has length at most `max_chars`, every flushed piece and the
running accumulator stay below `2 * max_chars` (the overshoot-bias rule
can exceed `max_chars` by less than the appended fragment's length, and a
second consecutive overshoot is impossible). -/
theorem pack_bound (mc : ℕ) (h1 : 1 ≤ mc) :
    ∀ (frags : List PyStr) (st : List PyStr × PyStr),
      (∀ f ∈ frags, f.length ≤ mc) →
      (∀ r ∈ st.1, r.length ≤ 2 * mc - 1) → st.2.length ≤ 2 * mc - 1 →
      (∀ r ∈ (frags.foldl (packFragment mc) st).1, r.length ≤ 2 * mc - 1) ∧
        (frags.foldl (packFragment mc) st).2.length ≤ 2 * mc - 1 := by
  intro frags
  induction frags with
  | nil => intro st _ hres hcur; exact ⟨hres, hcur⟩
  | cons f fs ih =>
    intro st hfr hres hcur
    have hf : f.length ≤ mc := hfr f (by simp)
    have hfs : ∀ g ∈ fs, g.length ≤ mc := fun g hg => hfr g (by simp [hg])
    simp only [List.foldl_cons]
    apply ih _ hfs
    · intro r hr
      rw [packFragment] at hr
      by_cases hemp : st.2 = []
      · rw [if_pos hemp] at hr
        exact hres r hr
      · rw [if_neg hemp] at hr
        by_cases hcond : st.2.length + 1 + f.length ≤ mc ∨
            st.2.length + 1 + f.length - mc < f.length
        · rw [if_pos hcond] at hr
          exact hres r hr
        · rw [if_neg hcond] at hr
          simp only [List.mem_append, List.mem_singleton] at hr
          rcases hr with hr | rfl
          · exact hres r hr
          · exact hcur
    · rw [packFragment]
      by_cases hemp : st.2 = []
      · rw [if_pos hemp]
        dsimp only
        omega
      · rw [if_neg hemp]
        by_cases hcond : st.2.length + 1 + f.length ≤ mc ∨
            st.2.length + 1 + f.length - mc < f.length
        · rw [if_pos hcond]
          dsimp only
          simp only [List.length_append, List.length_singleton]
          omega
        · rw [if_neg hcond]
          dsimp only
          omega

/-- Every piece produced by `_split_sentence` has length below
`2 * max_chars`. -/
theorem split_sentence_length_le (sentence : PyStr) (mc : ℕ) (h1 : 1 ≤ mc) :
    ∀ c ∈ split_sentence sentence mc, c.length ≤ 2 * mc - 1 := by
  intro c hc
  rw [split_sentence] at hc
  have hfr : ∀ f ∈ ((sentence.splitOnP (· = ' ')).filter (· ≠ [])).flatMap
      (fun token => split_token token mc), f.length ≤ mc := by
    intro f hf
    obtain ⟨tok, _, hmem⟩ := List.mem_flatMap.mp hf
    exact split_token_length_le tok mc h1 f hmem
  have hinv := pack_bound mc h1 _ ([], []) hfr (by simp) (by simp)
  set st' := (((sentence.splitOnP (· = ' ')).filter (· ≠ [])).flatMap
      (fun token => split_token token mc)).foldl (packFragment mc) ([], []) with hst'
  by_cases hemp : st'.2 = []
  · rw [if_pos hemp] at hc
    exact hinv.1 c hc
  · rw [if_neg hemp] at hc
    simp only [List.mem_append, List.mem_singleton] at hc
    rcases hc with hc | rfl
    · exact hinv.1 c hc
    · exact hinv.2

/-- For widths `1 ≤ w = max_chars - 1` the `_split_token` loop computes
exactly the fixed-width spec slicing. -/
theorem sliceLoopF_eq_spec (w mc : ℕ) (h1 : 1 ≤ w) (hw : w + 1 ≤ mc) :
    ∀ (fuel : ℕ) (cs : List Char), cs ≠ [] → cs.length ≤ fuel →
      sliceLoopF w mc fuel cs = spec_slicesF w fuel cs := by
  intro fuel
  induction fuel with
  | zero =>
    intro cs hne hlen
    exact absurd (List.eq_nil_of_length_eq_zero (by omega)) hne
  | succ n ih =>
    intro cs hne hlen
    rw [sliceLoopF, spec_slicesF, if_neg (by omega : ¬w = 0),
      if_neg (by omega : ¬w = 0), if_neg hne]
    by_cases hle : cs.length ≤ w
    · have hrest : cs.drop w = [] := by
        rw [List.drop_eq_nil_iff]
        omega
      rw [if_pos hle, if_pos hrest]
      have htake : cs.take w = cs := List.take_of_length_le hle
      rw [if_neg (by rw [htake]; omega)]
      rw [htake]
    · have hrest : cs.drop w ≠ [] := by
        rw [Ne, List.drop_eq_nil_iff]
        omega
      rw [if_neg hle, if_neg hrest]
      congr 1
      apply ih _ hrest
      simp only [List.length_drop]
      omega

/-! ## Claims -/

/-- C1 (code_bug): the claim says `run` terminates and returns one
`ChunkMetrics` per chunk and that `_record_metric` terminates for every
call.  In the code, `_record_metric`'s first statement calls itself with
unchanged arguments, so every call — at every remaining recursion depth —
ends in `RecursionError`; consequently a `run` over a non-empty chunk
sequence with a succeeding provider propagates `RecursionError` instead of
returning the metrics. -/
theorem claim_C1_record_metric_diverges :
    (∀ (fuel : ℕ) (st : CtrlState) (m : ChunkMetrics) (u : Bool),
        record_metric fuel st m u = .error .recursionError) ∧
    (controller_run envPlain ctrl0 ['H', 'e', 'l', 'l', 'o', '.'] 16000 none).result
      = .error .recursionError := by
  refine ⟨record_metric_recursion, ?_⟩
  simp [controller_run, ctrl0, chunk_hello, envPlain, enumerateFrom, chunks_loop,
    attempt_loop, process_chunk, stream_and_play, compute_cache_key, frames_loop,
    RState.emit, RState.tick, RState.consumeUnderrun, record_metric_recursion]

/-- C2 (counterexample): in a run where the only chunk's first synthesis
attempt raises a transient rate-limit error and the retry succeeds, the
trace contains two `PhraseCache.get` calls for the chunk's fingerprint —
the retry re-executes `_process_chunk` from the top, repeating the cache
lookup, contrary to the claim that no additional `get` is made. -/
theorem claim_C2_counterexample :
    (controller_run (envRetry (1 / 2) (fun _ => 0) (fun i => i))
        ctrl0 ['H', 'i', '.'] 16000 none).trace =
      [.connect, .start 16000,
       .cacheGet kHi, .streamCall 0,
       .sleeps (compute_backoff 1 (some (1 / 2)) 0),
       .cacheGet kHi, .streamCall 1, .submit frameA,
       .cachePut kHi [0, 0] 16000,
       .flushClose, .closeProvider] ∧
    (controller_run (envRetry (1 / 2) (fun _ => 0) (fun i => i))
        ctrl0 ['H', 'i', '.'] 16000 none).trace.count (.cacheGet kHi) = 2 := by
  have ht : (controller_run (envRetry (1 / 2) (fun _ => 0) (fun i => i))
      ctrl0 ['H', 'i', '.'] 16000 none).trace =
      [.connect, .start 16000,
       .cacheGet kHi, .streamCall 0,
       .sleeps (compute_backoff 1 (some (1 / 2)) 0),
       .cacheGet kHi, .streamCall 1, .submit frameA,
       .cachePut kHi [0, 0] 16000,
       .flushClose, .closeProvider] := by
    simp [controller_run, ctrl0, envRetry, chunk_hi, enumerateFrom, chunks_loop,
      attempt_loop, process_chunk, stream_and_play, frames_loop, compute_cache_key,
      merge_params, kHi, frameA, RState.emit, RState.tick, RState.consumeUnderrun,
      cacheFind, record_metric_recursion]
  refine ⟨ht, ?_⟩
  rw [ht]
  simp [List.count_cons, kHi]

/-- C2 (amended): when a chunk's synthesis raises a transient error and the
retry bound is not exceeded, the controller sleeps for the computed
backoff delay and retries the same chunk, and the retry repeats the cache
lookup — exactly one `PhraseCache.get` per attempt (two in total here),
for every retry-after hint and every jitter and clock sequence. -/
theorem claim_C2_retry_repeats_cache_lookup (r : ℚ) (jB cB : ℕ → ℚ) :
    (controller_run (envRetry r jB cB) ctrl0 ['H', 'i', '.'] 16000 none).trace =
      [.connect, .start 16000,
       .cacheGet kHi, .streamCall 0,
       .sleeps (compute_backoff 1 (some r) (jB 0)),
       .cacheGet kHi, .streamCall 1, .submit frameA,
       .cachePut kHi [0, 0] 16000,
       .flushClose, .closeProvider] ∧
    (controller_run (envRetry r jB cB) ctrl0 ['H', 'i', '.'] 16000 none).trace.count
      (.cacheGet kHi) = 2 := by
  have ht : (controller_run (envRetry r jB cB) ctrl0 ['H', 'i', '.'] 16000 none).trace =
      [.connect, .start 16000,
       .cacheGet kHi, .streamCall 0,
       .sleeps (compute_backoff 1 (some r) (jB 0)),
       .cacheGet kHi, .streamCall 1, .submit frameA,
       .cachePut kHi [0, 0] 16000,
       .flushClose, .closeProvider] := by
    simp [controller_run, ctrl0, envRetry, chunk_hi, enumerateFrom, chunks_loop,
      attempt_loop, process_chunk, stream_and_play, frames_loop, compute_cache_key,
      merge_params, kHi, frameA, RState.emit, RState.tick, RState.consumeUnderrun,
      cacheFind, record_metric_recursion]
  refine ⟨ht, ?_⟩
  rw [ht]
  simp [List.count_cons, kHi]

/-- C3 (counterexample): the claim bounds every chunk by `max_chars` for
`max_chars ≥ 2`, but the deliberate overshoot-bias rule of
`_split_sentence` violates it: `chunk_text "aaa bbb" 5` produces the
single 7-character chunk `"aaa bbb"`. -/
theorem claim_C3_counterexample :
    (2 : ℤ) ≤ 5 ∧
    chunk_text ['a', 'a', 'a', ' ', 'b', 'b', 'b'] 5
      = some [['a', 'a', 'a', ' ', 'b', 'b', 'b']] ∧
    ¬(['a', 'a', 'a', ' ', 'b', 'b', 'b'] : PyStr).length ≤ 5 := by
  refine ⟨by norm_num, by decide, by decide⟩

/-- C3 (amended): for every `max_chars ≥ 2` and every input text, every
chunk returned by `chunk_text` has length at most `2 * max_chars - 1`;
the `max_chars` bound itself can be exceeded, but only through the
overshoot-bias packing rule, by less than the final token's length. -/
theorem claim_C3_chunk_length_bound (text : PyStr) (mc : ℤ) (h2 : 2 ≤ mc)
    (cs : List PyStr) (hcs : chunk_text text mc = some cs) :
    ∀ c ∈ cs, c.length ≤ 2 * mc.toNat - 1 := by
  intro c hc
  rw [chunk_text, if_neg (by omega)] at hcs
  obtain rfl : chunk_text_pos text mc.toNat = cs := by
    injection hcs
  rw [chunk_text_pos] at hc
  by_cases hnorm : normalize_whitespace text = []
  · rw [if_pos hnorm] at hc
    simp at hc
  · rw [if_neg hnorm] at hc
    obtain ⟨sentence, _, hmem⟩ := List.mem_flatMap.mp hc
    by_cases hs : sentence = []
    · rw [if_pos hs] at hmem; simp at hmem
    · rw [if_neg hs] at hmem
      exact split_sentence_length_le sentence mc.toNat (by omega) c hmem

/-- Witness for C3: the amended bound at the counterexample input. -/
theorem claim_C3_witness :
    (['a', 'a', 'a', ' ', 'b', 'b', 'b'] : PyStr).length ≤ 2 * (5 : ℤ).toNat - 1 :=
  claim_C3_chunk_length_bound ['a', 'a', 'a', ' ', 'b', 'b', 'b'] 5 (by norm_num)
    [['a', 'a', 'a', ' ', 'b', 'b', 'b']] (by decide)
    ['a', 'a', 'a', ' ', 'b', 'b', 'b'] (by simp)

/-- State triggering the prebuffer branch from a prebuffer of 190 ms. -/
def stPre : CtrlState :=
  { metrics := [], recent_metrics := [], recent_underruns := [true, true, true]
    pending_underrun := false, prebuffer_ms := 190, chunk_max_chars := 200 }

/-- State triggering the chunk-length branch at `chunk_max_chars = 117`. -/
def stChunk : CtrlState :=
  { metrics := [], recent_metrics := List.replicate 5 mSlow, recent_underruns := []
    pending_underrun := false, prebuffer_ms := 80, chunk_max_chars := 117 }

/-- C4 (counterexample): (1) from a prebuffer of 190 ms with more than 2
underruns among the last 5, `_apply_adaptive_logic` sets the prebuffer to
the 200 ms cap — an increase of 10, not "exactly 20"; (2) with p95
first-frame latency above 600 ms at `chunk_max_chars = 117`, the code sets
`max(80, int(117 * 0.8)) = 93`, while the claim's `max(80, round(117 *
0.8))` is 94. -/
theorem claim_C4_counterexample :
    ((apply_adaptive_logic stPre).prebuffer_ms = 200 ∧ (200 : ℤ) - 190 ≠ 20) ∧
    ((apply_adaptive_logic stChunk).chunk_max_chars = 93 ∧
      max 80 (roundHalfEven ((117 : ℚ) * (8 / 10))) = 94) := by
  refine ⟨⟨?_, by norm_num⟩, ⟨?_, ?_⟩⟩
  · norm_num [apply_adaptive_logic, stPre]
  · have h93 : pyTrunc08 117 = 93 := by decide
    norm_num [apply_adaptive_logic, stChunk, h93]
    rw [p95_mSlow]
    norm_num
  · norm_num [roundHalfEven]

/-- C4 (amended): after recording, the adaptive step satisfies: (1) if
strictly more than 2 of the last 5 underrun flags are true and the
prebuffer is below 200 ms, the prebuffer becomes `min(200, current + 20)`
— an increase of exactly 20 ms except when the 200 ms cap truncates it —
and never exceeds 200 ms; (2) if the rolling window holds 5 entries and
the 95th-percentile first-frame latency over the last 5 exceeds 600 ms,
the maximum chunk length becomes `max(80, int(current * 0.8))` (binary64
truncation) whenever that is smaller, otherwise stays unchanged; (3) the
maximum chunk length is never increased by this step. -/
theorem claim_C4_adaptive_step (st : CtrlState) :
    (2 < st.recent_underruns.count true → st.prebuffer_ms < 200 →
      ((apply_adaptive_logic st).prebuffer_ms = min 200 (st.prebuffer_ms + 20) ∧
       (apply_adaptive_logic st).prebuffer_ms ≤ 200 ∧
       (st.prebuffer_ms + 20 ≤ 200 →
         (apply_adaptive_logic st).prebuffer_ms = st.prebuffer_ms + 20))) ∧
    (5 ≤ st.recent_metrics.length →
      600 < (summarise_metrics
          (st.recent_metrics.drop (st.recent_metrics.length - 5))).p95_first_frame_ms →
      (apply_adaptive_logic st).chunk_max_chars =
        (if max 80 (pyTrunc08 st.chunk_max_chars) < st.chunk_max_chars
         then max 80 (pyTrunc08 st.chunk_max_chars) else st.chunk_max_chars)) ∧
    (apply_adaptive_logic st).chunk_max_chars ≤ st.chunk_max_chars := by
  simp only [apply_adaptive_logic]
  split_ifs <;> simp_all <;> omega

/-- State triggering both adaptive branches at once. -/
def stBoth : CtrlState :=
  { metrics := [], recent_metrics := List.replicate 5 mSlow
    recent_underruns := [true, true, true]
    pending_underrun := false, prebuffer_ms := 150, chunk_max_chars := 200 }

/-- Witness for C4: both adaptive branches at a concrete state. -/
theorem claim_C4_witness :
    (apply_adaptive_logic stBoth).prebuffer_ms = 170 ∧
    (apply_adaptive_logic stBoth).chunk_max_chars = 160 := by
  obtain ⟨h1, h2, _⟩ := claim_C4_adaptive_step stBoth
  have hp := h1 (by decide) (by decide)
  have hc := h2 (by decide) (by
    show (600 : ℚ) < _
    have : stBoth.recent_metrics.drop (stBoth.recent_metrics.length - 5)
        = List.replicate 5 mSlow := by decide
    rw [this, p95_mSlow]
    norm_num)
  constructor
  · rw [hp.1]; decide
  · rw [hc]; decide

/-- C5 (counterexample): `provider.connect()` and `playback.start(...)`
precede the `try` block, so when starting the playback sink raises, `run`
propagates the error with neither `flush_and_close` nor `close` invoked —
the trace ends at the failed `start`. -/
theorem claim_C5_counterexample :
    controller_run envStartFail ctrl0 ['H', 'i', '.'] 16000 none
      = ⟨[.connect, .start 16000], .error .audioDevice, ctrl0⟩ ∧
    Event.flushClose ∉ [Event.connect, Event.start 16000] ∧
    Event.closeProvider ∉ [Event.connect, Event.start 16000] := by
  refine ⟨?_, by decide, by decide⟩
  decide

/-- C5 (amended): on every exit path after both the provider connection
and the playback sink have been established — normal completion, fatal
provider error, exhausted retries, or any other exception raised while
processing chunks — the playback sink's `flush_and_close` and the
provider's `close` are both invoked (in that order, as the last two
collaborator calls) before `run` returns or propagates the error; a
failure during `connect` or `start` itself propagates without invoking
either release step. -/
theorem claim_C5_cleanup_after_entry (env : Env) (st : CtrlState) (text : PyStr)
    (sample_rate : ℤ) (max_chars : Option ℤ) (c : PyStr) (cs : List PyStr)
    (hchunks : chunk_text text (max_chars.getD st.chunk_max_chars) = some (c :: cs))
    (hconn : env.connect_error = none) (hstart : env.start_error = none) :
    ∃ t, (controller_run env st text sample_rate max_chars).trace
        = t ++ [Event.flushClose, Event.closeProvider] := by
  simp only [controller_run, hchunks, hconn, hstart]
  rcases hcl : chunks_loop env sample_rate (enumerateFrom 0 (c :: cs))
      { ctrl := st, trace := [.connect, .start sample_rate]
        clockIdx := 0, jitterIdx := 0, streamIdx := 0
        cacheMap := env.cache_init } with ⟨rs, err⟩
  cases err <;> exact ⟨rs.trace, rfl⟩

/-- Witness for C5: the release steps close a concrete successful-entry
run. -/
theorem claim_C5_witness :
    ∃ t, (controller_run envPlain ctrl0 ['H', 'i', '.'] 16000 none).trace
        = t ++ [Event.flushClose, Event.closeProvider] :=
  claim_C5_cleanup_after_entry envPlain ctrl0 ['H', 'i', '.'] 16000 none
    ['H', 'i', '.'] [] (by decide) rfl rfl

/-- Entry whose metadata is malformed and whose audio artifact cannot be
unlinked (a permission-style `OSError`, not `FileNotFoundError`). -/
def eBad : EntryFS :=
  { pcmExists := true, pcmRead := some [], pcmUnlinkFails := true
    metaExists := true, metaRead := some .malformed, metaUnlinkFails := false }

/-- C6 (counterexample): `_remove_files` swallows only
`FileNotFoundError`; on an entry with malformed metadata whose audio file
unlink raises another `OSError`, `get` propagates that error instead of
degrading to a cache miss. -/
theorem claim_C6_counterexample : cache_get 0 0 eBad = .error .osError := by decide

/-- C6 (amended): for every key, if the metadata is unreadable or
malformed, or the entry's age exceeds the TTL, or the audio bytes are
unreadable, then — provided unlinking raises no filesystem error other
than `FileNotFoundError` — `get` deletes both artifacts and returns
absent; a missing file during deletion is swallowed (idempotent
cleanup). -/
theorem claim_C6_read_failure_degrades :
    (∀ (e : EntryFS) (now ttl : ℚ),
      e.metaExists = true → e.pcmExists = true →
      (e.metaRead = none ∨ e.metaRead = some .malformed
        ∨ (∃ c r, e.metaRead = some (.parsed c r) ∧ ttl < now - c)
        ∨ (∃ c r, e.metaRead = some (.parsed c r) ∧ ¬ttl < now - c ∧ e.pcmRead = none)) →
      e.pcmUnlinkFails = false → e.metaUnlinkFails = false →
      cache_get now ttl e
        = .ok (none, { e with pcmExists := false, metaExists := false })) ∧
    (∀ e : EntryFS, e.pcmExists = false → e.metaExists = false →
      remove_files e = .ok { e with pcmExists := false, metaExists := false }) := by
  constructor
  · intro e now ttl hm hp hfail hu1 hu2
    rcases hfail with h | h | ⟨c, r, h, hexp⟩ | ⟨c, r, h, hfresh, hread⟩ <;>
      simp_all [cache_get, remove_files] <;> rfl
  · intro e h1 h2
    simp [remove_files, h1, h2]

/-- An expired but otherwise intact entry. -/
def eStale : EntryFS := cache_put 0 [7] 8000

/-- Witness for C6: an expired entry is removed and reported absent. -/
theorem claim_C6_witness :
    cache_get 100 3 eStale
      = .ok (none, { eStale with pcmExists := false, metaExists := false }) ∧
    remove_files { eStale with pcmExists := false, metaExists := false }
      = .ok { eStale with pcmExists := false, metaExists := false } := by
  have h := claim_C6_read_failure_degrades
  constructor
  · exact h.1 eStale 100 3 rfl rfl
      (Or.inr (Or.inr (Or.inl ⟨0, 8000, rfl, by norm_num⟩))) rfl rfl
  · exact h.2 { eStale with pcmExists := false, metaExists := false } rfl rfl

/-- C7 (counterexample): the jitter is drawn independently on every
attempt, so the realized delay is not non-decreasing across successive
attempts: with hint 10 and legal jitters 0.09 then 0, attempt 2's delay
(10) is below attempt 1's (10.09). -/
theorem claim_C7_counterexample :
    ((0 : ℚ) ≤ 9 / 100 ∧ (9 / 100 : ℚ) < 1 / 10) ∧
    ((0 : ℚ) ≤ 0 ∧ (0 : ℚ) < 1 / 10) ∧
    compute_backoff 2 (some 10) 0 < compute_backoff 1 (some 10) (9 / 100) := by
  refine ⟨⟨by norm_num, by norm_num⟩, ⟨le_refl 0, by norm_num⟩, ?_⟩
  have h1 : compute_backoff 2 (some 10) 0 = 10 := by
    simp only [compute_backoff]
    norm_num [c03]
  have h2 : compute_backoff 1 (some 10) (9 / 100) = 10 + 9 / 100 := by
    simp only [compute_backoff]
    norm_num [c03]
  rw [h1, h2]; norm_num

/-- C7 (amended): for every attempt `a` and non-negative hint `r`, the
delay equals `max(r, 0.3 * 2^(a-1)) + j` with `0.3` the binary64 literal
(`c03`); for any fixed hint and fixed jitter value the delay is
non-decreasing in the attempt number; the delay is never less than the
hint; and across successive attempts with independently drawn jitters the
delay can decrease only by strictly less than the 0.1 s jitter bound. -/
theorem claim_C7_backoff_properties :
    (∀ (a : ℕ) (r j : ℚ), 0 ≤ j → 0 ≤ r →
        compute_backoff a (some r) j = max r (c03 * 2 ^ (a - 1)) + j) ∧
    (∀ (a : ℕ) (r : Option ℚ) (j : ℚ),
        compute_backoff a r j ≤ compute_backoff (a + 1) r j) ∧
    (∀ (a : ℕ) (r j : ℚ), 0 ≤ j → r ≤ compute_backoff a (some r) j) ∧
    (∀ (a : ℕ) (r : Option ℚ) (j j' : ℚ), j < 1 / 10 → 0 ≤ j' →
        compute_backoff a r j - 1 / 10 < compute_backoff (a + 1) r j') := by
  have hbase : ∀ a : ℕ, (0 : ℚ) < c03 * 2 ^ (a - 1) := by
    intro a
    have := c03_pos
    positivity
  refine ⟨?_, ?_, ?_, ?_⟩
  · intro a r j _ hr
    simp only [compute_backoff]
    rcases eq_or_ne r 0 with h0 | h0
    · subst h0
      rw [if_pos rfl, max_eq_right (le_of_lt (hbase a))]
    · rw [if_neg h0]
  · intro a r j
    cases r with
    | none => simp only [compute_backoff]; linarith [backoff_base_mono a]
    | some ra =>
      simp only [compute_backoff]
      by_cases h0 : ra = 0
      · rw [if_pos h0, if_pos h0]; linarith [backoff_base_mono a]
      · rw [if_neg h0, if_neg h0]
        have hm : max ra (c03 * 2 ^ (a - 1)) ≤ max ra (c03 * 2 ^ (a + 1 - 1)) :=
          max_le_max (le_refl ra) (backoff_base_mono a)
        linarith
  · intro a r j hj
    simp only [compute_backoff]
    by_cases h0 : r = 0
    · subst h0; rw [if_pos rfl]; linarith [hbase a]
    · rw [if_neg h0]
      have := le_max_left r (c03 * 2 ^ (a - 1))
      linarith
  · intro a r j j' hj hj'
    cases r with
    | none =>
      simp only [compute_backoff]
      linarith [backoff_base_mono a]
    | some ra =>
      by_cases h0 : ra = 0
      · simp only [compute_backoff, if_pos h0]
        linarith [backoff_base_mono a]
      · simp only [compute_backoff, if_neg h0]
        have hm : max ra (c03 * 2 ^ (a - 1)) ≤ max ra (c03 * 2 ^ (a + 1 - 1)) :=
          max_le_max (le_refl ra) (backoff_base_mono a)
        linarith

/-- Witness for C7: the amended properties at concrete arguments. -/
theorem claim_C7_witness :
    compute_backoff 1 (some 2) (1 / 100) = max 2 (c03 * 2 ^ 0) + 1 / 100 ∧
    compute_backoff 1 (some 2) (1 / 100) ≤ compute_backoff 2 (some 2) (1 / 100) ∧
    (2 : ℚ) ≤ compute_backoff 1 (some 2) (1 / 100) ∧
    compute_backoff 1 (some 2) (9 / 100) - 1 / 10 < compute_backoff 2 (some 2) 0 := by
  obtain ⟨h1, h2, h3, h4⟩ := claim_C7_backoff_properties
  exact ⟨h1 1 2 (1 / 100) (by norm_num) (by norm_num), h2 1 (some 2) (1 / 100),
    h3 1 2 (1 / 100) (by norm_num), h4 1 (some 2) (9 / 100) 0 (by norm_num) le_rfl⟩

/-- C8: `put(k, bytes, rate)` followed immediately by `get(k)` (same
wall-clock instant, non-negative TTL) returns an entry with identical
bytes and rate; and once the entry's age exceeds the TTL, `get` returns
absent and both artifacts no longer exist. -/
theorem claim_C8_cache_round_trip :
    (∀ (pcm : Bytes) (rate : ℤ) (now ttl : ℚ), 0 ≤ ttl →
        cache_get now ttl (cache_put now pcm rate)
          = .ok (some ⟨pcm, rate, now⟩, cache_put now pcm rate)) ∧
    (∀ (pcm : Bytes) (rate : ℤ) (now₀ now₁ ttl : ℚ), ttl < now₁ - now₀ →
        ∃ e', cache_get now₁ ttl (cache_put now₀ pcm rate) = .ok (none, e')
          ∧ e'.pcmExists = false ∧ e'.metaExists = false) := by
  constructor
  · intro pcm rate now ttl httl
    simp only [cache_get, cache_put]
    norm_num
    intro hlt
    linarith
  · intro pcm rate now₀ now₁ ttl hexp
    refine ⟨{ cache_put now₀ pcm rate with pcmExists := false, metaExists := false },
      ?_, rfl, rfl⟩
    simp only [cache_get, cache_put, remove_files]
    norm_num
    rw [if_pos hexp]
    rfl

/-- Witness for C8: round trip and expiry at concrete values. -/
theorem claim_C8_witness :
    cache_get 5 60 (cache_put 5 [1, 2, 3] 16000)
      = .ok (some ⟨[1, 2, 3], 16000, 5⟩, cache_put 5 [1, 2, 3] 16000) ∧
    ∃ e', cache_get 100 60 (cache_put 5 [1, 2, 3] 16000) = .ok (none, e')
      ∧ e'.pcmExists = false ∧ e'.metaExists = false := by
  obtain ⟨h1, h2⟩ := claim_C8_cache_round_trip
  exact ⟨h1 [1, 2, 3] 16000 5 60 (by norm_num),
    h2 [1, 2, 3] 16000 5 100 60 (by norm_num)⟩

/-- C9: for `max_chars ≥ 2`, a token longer than `max_chars` is split by
`_split_token` into exactly the fixed-width slices of width
`max_chars - 1` described by the spec — each non-final slice suffixed
with a hyphen, the final slice the bare remainder (`spec_slices`); for
`max_chars = 1` (the only positive value with `max_chars ≤ 1`) the
fallback yields one character per output unit; and a 36-character single
token with `max_chars = 10` yields exactly 4 pieces, the first three
hyphen-suffixed and the last not. -/
theorem claim_C9_token_slicing :
    (∀ (t : PyStr) (mc : ℕ), 2 ≤ mc → mc < t.length →
        split_token t mc = spec_slices (mc - 1) t) ∧
    (∀ t : PyStr, t ≠ [] → split_token t 1 = t.map (fun c => [c])) ∧
    chunk_text (List.replicate 36 'a') 10 =
      some [List.replicate 9 'a' ++ ['-'], List.replicate 9 'a' ++ ['-'],
            List.replicate 9 'a' ++ ['-'], List.replicate 9 'a'] := by
  refine ⟨?_, ?_, by decide⟩
  · intro t mc h2 hlen
    rw [split_token, if_neg (by omega), if_neg (by omega), spec_slices]
    exact sliceLoopF_eq_spec (mc - 1) mc (by omega) (by omega) t.length t
      (by intro h; subst h; simp at hlen) le_rfl
  · intro t hne
    rw [split_token]
    by_cases hlen : t.length ≤ 1
    · rw [if_pos hlen]
      match t, hne with
      | [c], _ => rfl
      | c :: c' :: t', _ => simp at hlen
    · rw [if_neg hlen, if_pos le_rfl]

/-- Witness for C9: the slicing equality and the one-character fallback at
concrete tokens. -/
theorem claim_C9_witness :
    split_token (List.replicate 12 'a') 5 = spec_slices 4 (List.replicate 12 'a') ∧
    split_token ['a', 'b'] 1 = [['a'], ['b']] := by
  obtain ⟨h1, h2, _⟩ := claim_C9_token_slicing
  exact ⟨h1 (List.replicate 12 'a') 5 (by norm_num) (by decide),
    h2 ['a', 'b'] (by decide)⟩

/-- C10: for every input that chunks to an empty sequence, `run` returns
the controller's existing metrics list unchanged and touches no
collaborator: the trace is empty — no `connect`, `start`, `submit`,
`flush_and_close` or `close` call — and the controller state is
unchanged. -/
theorem claim_C10_empty_run_no_effect (env : Env) (st : CtrlState) (text : PyStr)
    (sample_rate : ℤ) (max_chars : Option ℤ)
    (h : chunk_text text (max_chars.getD st.chunk_max_chars) = some []) :
    controller_run env st text sample_rate max_chars = ⟨[], .ok st.metrics, st⟩ := by
  simp [controller_run, h]

/-- Witness for C10: a whitespace-only input leaves the controller
untouched. -/
theorem claim_C10_witness :
    controller_run envPlain ctrl0 [' ', ' '] 16000 none
      = ⟨[], .ok ctrl0.metrics, ctrl0⟩ :=
  claim_C10_empty_run_no_effect envPlain ctrl0 [' ', ' '] 16000 none (by decide)
